import Mathlib

/-!
Shallow embedding of `frontend/src/app/services/mining.service.ts`
(class `MiningService`): the stats derivation (`generateMiningStats`),
the unit selector (`getMiningUnits`), the per-interval cache inside
`getMiningStats`, `clearCache` and the network-change subscription, and
`getDefaultTimespan`.

Numbers are modelled by `ℚ` (JS numbers on the values these claims are
about), block counters by `ℕ`; optional payload fields become `Option`
with `x || 0` read as `Option.getD 0`; `parseInt(s, 10)` returns
`Option ℤ` with `none` standing for JS `NaN`; `Date.now()` timestamps
are `ℤ` milliseconds. The RxJS observable returned by `getMiningStats`
is modelled as one atomic step: state in, a fetch outcome (success body
and header, or failure), and out come the produced `MiningStats`, the
new state, and whether a network fetch was issued.
-/

/-- One raw pool record from the backend payload (`SinglePoolStats` input
fields the service reads: `blockCount`, `emptyBlocks`, `slug`, plus the
`name` identifier carried along by the object spread). -/
structure RawPoolStat where
  name : String
  slug : String
  blockCount : ℕ
  emptyBlocks : Option ℕ
  deriving DecidableEq

/-- The raw payload body (`PoolsStats`): total block count, the three
hashrate estimates (optional in the payload, defaulted at use sites),
and the pool list. -/
structure PoolsStats where
  blockCount : ℕ
  lastEstimatedHashrate : Option ℚ
  lastEstimatedHashrate3d : Option ℚ
  lastEstimatedHashrate1w : Option ℚ
  pools : List RawPoolStat
  deriving DecidableEq

/-- `MiningUnits` interface: hashrate divider and unit label. -/
structure MiningUnits where
  hashrateDivider : ℚ
  hashrateUnit : String
  deriving DecidableEq

/-- One derived pool entry: the computed fields of the object literal in
`generateMiningStats` followed by the raw fields merged in by
`...poolStat`. -/
structure DerivedPoolStat where
  share : ℚ
  lastEstimatedHashrate : ℚ
  lastEstimatedHashrate3d : ℚ
  lastEstimatedHashrate1w : ℚ
  emptyBlockRatio : String
  logo : String
  name : String
  slug : String
  blockCount : ℕ
  emptyBlocks : Option ℕ
  deriving DecidableEq

/-- The `MiningStats` interface. `totalBlockCount` is `Option ℤ`:
`none` models the JS `NaN` that `parseInt` yields on input with no
leading digits. -/
structure MiningStats where
  lastEstimatedHashrate : ℚ
  lastEstimatedHashrate3d : ℚ
  lastEstimatedHashrate1w : ℚ
  blockCount : ℕ
  totalEmptyBlock : ℕ
  totalEmptyBlockRatio : String
  pools : List DerivedPoolStat
  miningUnits : MiningUnits
  totalBlockCount : Option ℤ
  deriving DecidableEq

/-- The `powerTable` object literal in `getMiningUnits`. -/
def powerTable (p : ℕ) : String :=
  if p = 0 then "H/s"
  else if p = 3 then "kH/s"
  else if p = 6 then "MH/s"
  else if p = 9 then "GH/s"
  else if p = 12 then "TH/s"
  else if p = 15 then "PH/s"
  else if p = 18 then "EH/s"
  else ""

/-- `getMiningUnits`: power 12 for `testnet`/`testnet4`, else 18. -/
def getMiningUnits (network : String) : MiningUnits :=
  let selectedPower : ℕ :=
    if network = "testnet" ∨ network = "testnet4" then 12 else 18
  { hashrateDivider := (10 : ℚ) ^ selectedPower
    hashrateUnit := powerTable selectedPower }

/-- The integer of hundredths chosen by JS `toFixed(2)`: the integer `n`
with `n / 100` closest to the value, ties resolved to the larger `n`,
i.e. `⌊100 q + 1/2⌋`. -/
def toFixed2Int (q : ℚ) : ℤ := ⌊q * 100 + 1 / 2⌋

/-- Numeric value of `parseFloat(q.toFixed(2))`. -/
def roundTo2 (q : ℚ) : ℚ := (toFixed2Int q : ℚ) / 100

/-- Render a non-negative number of hundredths as a fixed two-decimal
string, as `toFixed(2)` does. -/
def fmtHundredths (n : ℕ) : String :=
  toString (n / 100) ++ "." ++ (if n % 100 < 10 then "0" else "") ++ toString (n % 100)

/-- The string `q.toFixed(2)`. -/
def fmtFixed2 (q : ℚ) : String :=
  let n := toFixed2Int q
  if n < 0 then "-" ++ fmtHundredths n.natAbs else fmtHundredths n.toNat

/-- JS `x || d` on a nullable string: `null` and `""` are falsy. -/
def jsStringOr (s : Option String) (d : String) : String :=
  match s with
  | none => d
  | some v => if v = "" then d else v

/-- Value of a maximal leading run of decimal digits; `none` when there
is no leading digit. -/
def digitsVal (cs : List Char) : Option ℕ :=
  let ds := cs.takeWhile Char.isDigit
  if ds.isEmpty then none
  else some (ds.foldl (fun acc c => acc * 10 + (c.toNat - 48)) 0)

/-- JS `parseInt(s, 10)`: skip leading whitespace, optional sign, then
the maximal run of decimal digits; `none` (JS `NaN`) when no digit
follows. -/
def parseInt10 (s : String) : Option ℤ :=
  match s.toList.dropWhile Char.isWhitespace with
  | '-' :: rest => (digitsVal rest).map (fun n => -(n : ℤ))
  | '+' :: rest => (digitsVal rest).map (fun n => (n : ℤ))
  | cs => (digitsVal cs).map (fun n => (n : ℤ))

/-- `const safeBlockCount = stats.blockCount > 0 ? stats.blockCount : 1`. -/
def safeBlockCount (n : ℕ) : ℕ := if 0 < n then n else 1

/-- `Object.values(stats.pools).reduce((prev, cur) => prev + (cur.emptyBlocks || 0), 0)`. -/
def totalEmptyBlock (pools : List RawPoolStat) : ℕ :=
  pools.foldl (fun prev cur => prev + cur.emptyBlocks.getD 0) 0

/-- The callback of `stats.pools.map` in `generateMiningStats`:
`blockCount` is the payload total, `hr`/`hr3d`/`hr1w` the already
defaulted aggregate hashrate estimates. -/
def derivePoolStat (blockCount : ℕ) (hr hr3d hr1w : ℚ) (hashrateDivider : ℚ)
    (poolStat : RawPoolStat) : DerivedPoolStat :=
  { share := if 0 < blockCount then roundTo2 ((poolStat.blockCount : ℚ) / (blockCount : ℚ) * 100) else 0
    lastEstimatedHashrate := ((poolStat.blockCount : ℚ) / (safeBlockCount blockCount : ℚ)) * hr / hashrateDivider
    lastEstimatedHashrate3d := ((poolStat.blockCount : ℚ) / (safeBlockCount blockCount : ℚ)) * hr3d / hashrateDivider
    lastEstimatedHashrate1w := ((poolStat.blockCount : ℚ) / (safeBlockCount blockCount : ℚ)) * hr1w / hashrateDivider
    emptyBlockRatio :=
      if 0 < poolStat.blockCount then
        fmtFixed2 ((poolStat.emptyBlocks.getD 0 : ℚ) / (poolStat.blockCount : ℚ) * 100)
      else "0.00"
    logo := "/resources/mining-pools/" ++ poolStat.slug ++ (if poolStat.slug = "unknown" then ".png" else ".svg")
    name := poolStat.name
    slug := poolStat.slug
    blockCount := poolStat.blockCount
    emptyBlocks := poolStat.emptyBlocks }

/-- `generateMiningStats(response)`, with the response split into its
body and the `x-total-count` header value (`none` when absent). -/
def generateMiningStats (network : String) (body : PoolsStats)
    (totalCountHeader : Option String) : MiningStats :=
  { lastEstimatedHashrate := body.lastEstimatedHashrate.getD 0 / (getMiningUnits network).hashrateDivider
    lastEstimatedHashrate3d := body.lastEstimatedHashrate3d.getD 0 / (getMiningUnits network).hashrateDivider
    lastEstimatedHashrate1w := body.lastEstimatedHashrate1w.getD 0 / (getMiningUnits network).hashrateDivider
    blockCount := body.blockCount
    totalEmptyBlock := totalEmptyBlock body.pools
    totalEmptyBlockRatio :=
      if 0 < body.blockCount then
        fmtFixed2 ((totalEmptyBlock body.pools : ℚ) / (body.blockCount : ℚ) * 100)
      else "0.00"
    pools := body.pools.map
      (derivePoolStat body.blockCount (body.lastEstimatedHashrate.getD 0)
        (body.lastEstimatedHashrate3d.getD 0) (body.lastEstimatedHashrate1w.getD 0)
        (getMiningUnits network).hashrateDivider)
    miningUnits := getMiningUnits network
    totalBlockCount := parseInt10 (jsStringOr totalCountHeader "0") }

/-- The empty fallback `MiningStats` built in the `catchError` handler. -/
def emptyMiningStats (network : String) : MiningStats :=
  { lastEstimatedHashrate := 0
    lastEstimatedHashrate3d := 0
    lastEstimatedHashrate1w := 0
    blockCount := 0
    totalEmptyBlock := 0
    totalEmptyBlockRatio := "0.00"
    pools := []
    miningUnits := getMiningUnits network
    totalBlockCount := some 0 }

/-- One cache slot: `{ lastUpdated: number, data: MiningStats }`. -/
structure CacheEntry where
  lastUpdated : ℤ
  data : MiningStats
  deriving DecidableEq

/-- The mutable fields of `MiningService`: the per-interval cache object
and `poolsData`. -/
structure ServiceState where
  cache : String → Option CacheEntry
  poolsData : List RawPoolStat

/-- The state of a freshly constructed service: empty cache, no pools. -/
def initState : ServiceState :=
  { cache := fun _ => none, poolsData := [] }

/-- Outcome of the underlying `apiService.listPools$(interval)` call. -/
inductive FetchOutcome where
  | success (body : PoolsStats) (totalCountHeader : Option String)
  | failure

/-- Result of one `getMiningStats` call: the emitted `MiningStats`, the
service state afterwards, and whether a network fetch was issued. -/
structure StepResult where
  result : MiningStats
  state : ServiceState
  fetched : Bool

/-- The cache-hit test on line 52:
`this.cache[interval] && this.cache[interval].lastUpdated > (Date.now() - (5 * 60000))`. -/
def cacheFresh (s : ServiceState) (interval : String) (now : ℤ) : Bool :=
  match s.cache interval with
  | some entry => decide (entry.lastUpdated > now - 5 * 60000)
  | none => false

/-- The `tap` writing `this.cache[interval] = { lastUpdated: Date.now(), data: stats }`. -/
def cachePut (s : ServiceState) (interval : String) (entry : CacheEntry) : ServiceState :=
  { s with cache := fun k => if k = interval then some entry else s.cache k }

/-- The fetch branch of `getMiningStats`: `listPools$ |> map(generateMiningStats)
|> catchError(return empty) |> tap(write cache)`. Note the `tap` sits after
the `catchError`, so the fallback value is written to the cache too. -/
def fetchAndCache (network : String) (s : ServiceState) (now : ℤ) (interval : String)
    (outcome : FetchOutcome) : StepResult :=
  let stats :=
    match outcome with
    | FetchOutcome.success body hdr => generateMiningStats network body hdr
    | FetchOutcome.failure => emptyMiningStats network
  { result := stats
    state := cachePut s interval { lastUpdated := now, data := stats }
    fetched := true }

/-- `getMiningStats(interval)` as one atomic step at time `now` with the
given fetch outcome. -/
def getMiningStats (network : String) (s : ServiceState) (now : ℤ) (interval : String)
    (outcome : FetchOutcome) : StepResult :=
  match s.cache interval with
  | some entry =>
    if entry.lastUpdated > now - 5 * 60000 then
      { result := entry.data, state := s, fetched := false }
    else fetchAndCache network s now interval outcome
  | none => fetchAndCache network s now interval outcome

/-- `clearCache()`: `this.cache = {}; this.poolsData = [];`. -/
def clearCache (_s : ServiceState) : ServiceState :=
  { cache := fun _ => none, poolsData := [] }

/-- Body of the `networkChanged$` subscription set up in the constructor. -/
def onNetworkChanged (s : ServiceState) : ServiceState := clearCache s

/-- Contribution of one call to the number of network requests. -/
def fetchCount (r : StepResult) : ℕ := if r.fetched then 1 else 0

/-- The fixed `timespans` list in `getDefaultTimespan`. -/
def timespans : List String :=
  ["24h", "3d", "1w", "1m", "3m", "6m", "1y", "2y", "3y", "all"]

/-- JS `Array.prototype.indexOf`: first index of `x`, `-1` when absent. -/
def jsIndexOf : List String → String → ℤ
  | [], _ => -1
  | a :: rest, x =>
    if a = x then 0
    else
      let r := jsIndexOf rest x
      if r = -1 then -1 else r + 1

/-- `getDefaultTimespan(min)`, with the stored
`miningWindowPreference` value passed in explicitly (`none` = absent). -/
def getDefaultTimespan (storedPref : Option String) (minSpan : String) : String :=
  let preference := storedPref.getD "1w"
  if jsIndexOf timespans preference < jsIndexOf timespans minSpan then minSpan
  else preference

/-! ### Helper lemmas -/

theorem toFixed2Int_eq_of (q : ℚ) (n : ℤ) (h1 : (n : ℚ) ≤ q * 100 + 1 / 2)
    (h2 : q * 100 + 1 / 2 < n + 1) : toFixed2Int q = n := by
  unfold toFixed2Int
  exact Int.floor_eq_iff.mpr ⟨h1, h2⟩

theorem toFixed2Int_nonneg (q : ℚ) (h : 0 ≤ q) : 0 ≤ toFixed2Int q := by
  unfold toFixed2Int
  exact Int.floor_nonneg.mpr (by linarith)

theorem toFixed2Int_le_10000 (q : ℚ) (h : q ≤ 100) : toFixed2Int q ≤ 10000 := by
  unfold toFixed2Int
  have hlt : ⌊q * 100 + 1 / 2⌋ < (10001 : ℤ) := by
    rw [Int.floor_lt]
    push_cast
    linarith
  omega

theorem roundTo2_nonneg (q : ℚ) (h : 0 ≤ q) : 0 ≤ roundTo2 q := by
  unfold roundTo2
  have := toFixed2Int_nonneg q h
  positivity

theorem roundTo2_le_100 (q : ℚ) (h : q ≤ 100) : roundTo2 q ≤ 100 := by
  unfold roundTo2
  have h1 : toFixed2Int q ≤ 10000 := toFixed2Int_le_10000 q h
  have h2 : (toFixed2Int q : ℚ) ≤ 10000 := by exact_mod_cast h1
  rw [div_le_iff₀ (by norm_num : (0 : ℚ) < 100)]
  linarith

theorem fmtFixed2_of_nonneg (q : ℚ) (h : 0 ≤ q) :
    fmtFixed2 q = fmtHundredths (toFixed2Int q).toNat := by
  simp only [fmtFixed2]
  rw [if_neg (not_lt.mpr (toFixed2Int_nonneg q h))]

theorem natRatioLe100 (e c : ℕ) (hc : 0 < c) (h : e ≤ c) :
    (e : ℚ) / (c : ℚ) * 100 ≤ 100 := by
  have hc' : (0 : ℚ) < (c : ℚ) := by exact_mod_cast hc
  have h1 : (e : ℚ) / (c : ℚ) ≤ 1 := (div_le_one hc').mpr (by exact_mod_cast h)
  linarith

theorem fetchCount_le_one (r : StepResult) : fetchCount r ≤ 1 := by
  unfold fetchCount
  split <;> omega

theorem jsIndexOf_of_not_mem (l : List String) (x : String) (h : x ∉ l) :
    jsIndexOf l x = -1 := by
  induction l with
  | nil => rfl
  | cons a rest ih =>
    simp only [List.mem_cons, not_or] at h
    simp only [jsIndexOf]
    rw [if_neg (fun hax => h.1 hax.symm), ih h.2]
    rfl

theorem jsIndexOf_nonneg_of_mem (l : List String) (x : String) (h : x ∈ l) :
    0 ≤ jsIndexOf l x := by
  induction l with
  | nil => simp at h
  | cons a rest ih =>
    simp only [jsIndexOf]
    by_cases hax : a = x
    · rw [if_pos hax]
    · rw [if_neg hax]
      have hx : x ∈ rest := by
        rcases List.mem_cons.mp h with h1 | h1
        · exact absurd h1.symm hax
        · exact h1
      have := ih hx
      split <;> omega

/-! ### Concrete inputs used by witnesses and counterexamples -/

/-- A payload whose total block count is zero. -/
def zeroPayload : PoolsStats :=
  { blockCount := 0
    lastEstimatedHashrate := none
    lastEstimatedHashrate3d := none
    lastEstimatedHashrate1w := none
    pools := [{ name := "p", slug := "p", blockCount := 0, emptyBlocks := none }] }

/-! ### Claim theorems -/

/-- C9: `getMiningUnits` is total over all network identifiers: on
`testnet`/`testnet4` it selects `10^12`/`TH/s`, and on the main network
or any other identifier it selects the default `10^18`/`EH/s`. -/
theorem getMiningUnits_total (network : String) :
    ((network = "testnet" ∨ network = "testnet4") →
      getMiningUnits network = { hashrateDivider := 10 ^ 12, hashrateUnit := "TH/s" }) ∧
    (network ≠ "testnet" → network ≠ "testnet4" →
      getMiningUnits network = { hashrateDivider := 10 ^ 18, hashrateUnit := "EH/s" }) := by
  constructor
  · intro h
    simp only [getMiningUnits]
    rw [if_pos h]
    rfl
  · intro h1 h2
    simp only [getMiningUnits]
    rw [if_neg (by simp [h1, h2])]
    rfl

/-- Witness for C9: concrete evaluation on `testnet` and on the main
network (the empty network token). -/
theorem getMiningUnits_total_witness :
    getMiningUnits "testnet" = { hashrateDivider := 10 ^ 12, hashrateUnit := "TH/s" } ∧
    getMiningUnits "" = { hashrateDivider := 10 ^ 18, hashrateUnit := "EH/s" } :=
  ⟨(getMiningUnits_total "testnet").1 (Or.inl rfl),
   (getMiningUnits_total "").2 (by decide) (by decide)⟩

/-- C8: `getDefaultTimespan` returns the floor `minSpan` exactly when the
(stored or defaulted) preference ranks strictly before `minSpan` in the
fixed timespan list, and otherwise returns the preference unchanged; in
particular preference `24h` with floor `1m` gives `1m`, and preference
`1y` with floor `1m` gives `1y`. -/
theorem getDefaultTimespan_spec (storedPref : Option String) (minSpan : String) :
    (jsIndexOf timespans (storedPref.getD "1w") < jsIndexOf timespans minSpan →
      getDefaultTimespan storedPref minSpan = minSpan) ∧
    (jsIndexOf timespans minSpan ≤ jsIndexOf timespans (storedPref.getD "1w") →
      getDefaultTimespan storedPref minSpan = storedPref.getD "1w") ∧
    getDefaultTimespan (some "24h") "1m" = "1m" ∧
    getDefaultTimespan (some "1y") "1m" = "1y" := by
  refine ⟨?_, ?_, by decide, by decide⟩
  · intro h
    simp only [getDefaultTimespan]
    rw [if_pos h]
  · intro h
    simp only [getDefaultTimespan]
    rw [if_neg (not_lt.mpr h)]

/-- Witness for C8: applies the ranking clause at the concrete stored
preference `24h` and floor `1m`. -/
theorem getDefaultTimespan_spec_witness :
    getDefaultTimespan (some "24h") "1m" = "1m" :=
  (getDefaultTimespan_spec (some "24h") "1m").1 (by decide)

/-- C10: when the floor is a member of the fixed timespan list and the
stored preference is not, `getDefaultTimespan` returns the floor. -/
theorem getDefaultTimespan_unknown_pref (storedPref minSpan : String)
    (hmin : minSpan ∈ timespans) (hpref : storedPref ∉ timespans) :
    getDefaultTimespan (some storedPref) minSpan = minSpan := by
  have h1 : jsIndexOf timespans storedPref = -1 :=
    jsIndexOf_of_not_mem _ _ hpref
  have h2 : 0 ≤ jsIndexOf timespans minSpan :=
    jsIndexOf_nonneg_of_mem _ _ hmin
  simp only [getDefaultTimespan, Option.getD_some]
  rw [if_pos (by omega)]

/-- Witness for C10: the unrecognized stored preference `zzz` with floor
`24h` yields `24h`. -/
theorem getDefaultTimespan_unknown_pref_witness :
    getDefaultTimespan (some "zzz") "24h" = "24h" :=
  getDefaultTimespan_unknown_pref "zzz" "24h" (by decide) (by decide)

/-- C4: firing the network-change notifier clears every keyed cache
entry and empties the pool-identity cache, so any subsequent
`getMiningStats` call is a cache miss and issues a fetch. -/
theorem networkChange_clears_cache (s : ServiceState) (interval network : String)
    (now : ℤ) (o : FetchOutcome) :
    (onNetworkChanged s).cache interval = none ∧
    (onNetworkChanged s).poolsData = [] ∧
    cacheFresh (onNetworkChanged s) interval now = false ∧
    (getMiningStats network (onNetworkChanged s) now interval o).fetched = true := by
  refine ⟨rfl, rfl, rfl, ?_⟩
  cases o <;> rfl

/-- C2: on a payload with zero total block count, the derived total
empty-block ratio is `"0.00"`, every derived pool share is `0`, every
pool whose own block count is zero has empty-block ratio `"0.00"`, and
the division guard `safeBlockCount` is positive. -/
theorem generateMiningStats_zero_total (network : String) (body : PoolsStats)
    (hdr : Option String) (h0 : body.blockCount = 0) :
    (generateMiningStats network body hdr).totalEmptyBlockRatio = "0.00" ∧
    (∀ p ∈ (generateMiningStats network body hdr).pools, p.share = 0) ∧
    (∀ p ∈ (generateMiningStats network body hdr).pools,
      p.blockCount = 0 → p.emptyBlockRatio = "0.00") ∧
    0 < safeBlockCount body.blockCount := by
  refine ⟨?_, ?_, ?_, ?_⟩
  · simp [generateMiningStats, h0]
  · intro p hp
    simp only [generateMiningStats, List.mem_map] at hp
    obtain ⟨rp, _, rfl⟩ := hp
    simp [derivePoolStat, h0]
  · intro p hp h
    simp only [generateMiningStats, List.mem_map] at hp
    obtain ⟨rp, _, rfl⟩ := hp
    simp only [derivePoolStat] at h ⊢
    rw [if_neg (by omega)]
  · rw [h0]
    decide

/-- Witness for C2: concrete zero-block-count payload. -/
theorem generateMiningStats_zero_total_witness :
    (generateMiningStats "" zeroPayload none).totalEmptyBlockRatio = "0.00" :=
  (generateMiningStats_zero_total "" zeroPayload none rfl).1

theorem fetchAndCache_fetched (network : String) (s : ServiceState) (now : ℤ)
    (interval : String) (o : FetchOutcome) :
    (fetchAndCache network s now interval o).fetched = true := rfl

theorem fetchAndCache_state_cache_self (network : String) (s : ServiceState) (now : ℤ)
    (interval : String) (o : FetchOutcome) :
    (fetchAndCache network s now interval o).state.cache interval
      = some { lastUpdated := now, data := (fetchAndCache network s now interval o).result } := by
  simp [fetchAndCache, cachePut]

/-- C3: `getMiningStats` returns from the cache without fetching exactly
when an entry exists for the key and is strictly younger than 5 minutes,
in which case it returns that entry's stored stats and leaves the state
unchanged; and two calls for the same interval within 5 minutes issue at
most one fetch, the second returning exactly the stats the first call
stored when the first call was a miss. -/
theorem getMiningStats_cache_spec (network : String) (s : ServiceState) (interval : String)
    (t1 t2 : ℤ) (o1 o2 : FetchOutcome) (hle : t1 ≤ t2) (hwin : t2 - t1 < 5 * 60000) :
    ((getMiningStats network s t1 interval o1).fetched = false ↔
      cacheFresh s interval t1 = true) ∧
    (cacheFresh s interval t1 = true ↔
      ∃ e, s.cache interval = some e ∧ t1 - e.lastUpdated < 5 * 60000) ∧
    (∀ e, s.cache interval = some e → t1 - e.lastUpdated < 5 * 60000 →
      getMiningStats network s t1 interval o1
        = { result := e.data, state := s, fetched := false }) ∧
    fetchCount (getMiningStats network s t1 interval o1) +
      fetchCount (getMiningStats network (getMiningStats network s t1 interval o1).state
        t2 interval o2) ≤ 1 ∧
    (cacheFresh s interval t1 = false →
      (getMiningStats network (getMiningStats network s t1 interval o1).state
          t2 interval o2).result = (getMiningStats network s t1 interval o1).result ∧
      (getMiningStats network s t1 interval o1).state.cache interval
        = some { lastUpdated := t1,
                 data := (getMiningStats network s t1 interval o1).result }) := by
  rcases hc : s.cache interval with _ | e
  · -- no entry: first call takes the fetch branch
    have hr1 : getMiningStats network s t1 interval o1
        = fetchAndCache network s t1 interval o1 := by
      simp [getMiningStats, hc]
    have hfr : cacheFresh s interval t1 = false := by
      simp [cacheFresh, hc]
    have hcache1 := fetchAndCache_state_cache_self network s t1 interval o1
    have hr2 : getMiningStats network (fetchAndCache network s t1 interval o1).state
        t2 interval o2
        = { result := (fetchAndCache network s t1 interval o1).result,
            state := (fetchAndCache network s t1 interval o1).state, fetched := false } := by
      simp only [getMiningStats, hcache1]
      rw [if_pos (by omega)]
    refine ⟨?_, ?_, ?_, ?_, ?_⟩
    · rw [hr1, hfr, fetchAndCache_fetched]
      decide
    · rw [hfr]
      constructor
      · intro h
        exact absurd h (by decide)
      · rintro ⟨e, he, -⟩
        exact Option.noConfusion he
    · intro e he
      exact Option.noConfusion he
    · rw [hr1, hr2]
      have h1 : fetchCount (fetchAndCache network s t1 interval o1) = 1 := rfl
      have h0 : fetchCount
          { result := (fetchAndCache network s t1 interval o1).result,
            state := (fetchAndCache network s t1 interval o1).state, fetched := false } = 0 := rfl
      omega
    · intro _
      rw [hr1, hr2]
      exact ⟨rfl, hcache1⟩
  · by_cases hf : e.lastUpdated > t1 - 5 * 60000
    · -- fresh entry: first call is a pure cache hit
      have hr1 : getMiningStats network s t1 interval o1
          = { result := e.data, state := s, fetched := false } := by
        simp only [getMiningStats, hc]
        rw [if_pos hf]
      have hfr : cacheFresh s interval t1 = true := by
        simp only [cacheFresh, hc, decide_eq_true_eq]
        omega
      refine ⟨?_, ?_, ?_, ?_, ?_⟩
      · rw [hr1, hfr]
        simp
      · rw [hfr]
        constructor
        · intro _
          exact ⟨e, rfl, by omega⟩
        · intro _
          rfl
      · intro e' he' hlt
        injection he' with h
        subst h
        exact hr1
      · rw [hr1]
        have hst : ({ result := e.data, state := s, fetched := false } : StepResult).state = s :=
          rfl
        rw [hst]
        have h2 := fetchCount_le_one (getMiningStats network s t2 interval o2)
        have h1 : fetchCount { result := e.data, state := s, fetched := false } = 0 := rfl
        omega
      · intro habs
        rw [hfr] at habs
        exact absurd habs (by decide)
    · -- stale entry: behaves as a miss
      have hr1 : getMiningStats network s t1 interval o1
          = fetchAndCache network s t1 interval o1 := by
        simp only [getMiningStats, hc]
        rw [if_neg hf]
      have hfr : cacheFresh s interval t1 = false := by
        simp only [cacheFresh, hc]
        simpa using hf
      have hcache1 := fetchAndCache_state_cache_self network s t1 interval o1
      have hr2 : getMiningStats network (fetchAndCache network s t1 interval o1).state
          t2 interval o2
          = { result := (fetchAndCache network s t1 interval o1).result,
              state := (fetchAndCache network s t1 interval o1).state, fetched := false } := by
        simp only [getMiningStats, hcache1]
        rw [if_pos (by omega)]
      refine ⟨?_, ?_, ?_, ?_, ?_⟩
      · rw [hr1, hfr, fetchAndCache_fetched]
        decide
      · rw [hfr]
        constructor
        · intro h
          exact absurd h (by decide)
        · rintro ⟨e', he', hlt⟩
          injection he' with h
          subst h
          omega
      · intro e' he' hlt
        injection he' with h
        subst h
        exact absurd hlt (by omega)
      · rw [hr1, hr2]
        have h1 : fetchCount (fetchAndCache network s t1 interval o1) = 1 := rfl
        have h0 : fetchCount
            { result := (fetchAndCache network s t1 interval o1).result,
              state := (fetchAndCache network s t1 interval o1).state, fetched := false } = 0 := rfl
        omega
      · intro _
        rw [hr1, hr2]
        exact ⟨rfl, hcache1⟩

/-- Witness for C3: two immediate calls for `24h` on a fresh service
issue at most one fetch between them. -/
theorem getMiningStats_cache_spec_witness :
    fetchCount (getMiningStats "" initState 0 "24h" FetchOutcome.failure) +
      fetchCount (getMiningStats ""
        (getMiningStats "" initState 0 "24h" FetchOutcome.failure).state
        0 "24h" FetchOutcome.failure) ≤ 1 :=
  (getMiningStats_cache_spec "" initState "24h" 0 0 FetchOutcome.failure
    FetchOutcome.failure (by omega) (by omega)).2.2.2.1

/-- Counterexample for C1: on a fetch failure for a previously uncached
interval, the cache entry for that key is populated with the empty
placeholder (it does not stay absent), and a subsequent call one
millisecond later is served from the cache without a new fetch. -/
theorem getMiningStats_failure_populates_cache :
    initState.cache "24h" = none ∧
    (getMiningStats "" initState 0 "24h" FetchOutcome.failure).result
      = emptyMiningStats "" ∧
    (getMiningStats "" initState 0 "24h" FetchOutcome.failure).state.cache "24h"
      = some { lastUpdated := 0, data := emptyMiningStats "" } ∧
    (getMiningStats ""
        (getMiningStats "" initState 0 "24h" FetchOutcome.failure).state
        1 "24h" FetchOutcome.failure).fetched = false := by
  refine ⟨rfl, rfl, ?_, ?_⟩
  · simp [getMiningStats, initState, fetchAndCache, cachePut]
  · simp only [getMiningStats, initState, fetchAndCache, cachePut]
    norm_num

/-- C1 (amended): on fetch failure for a non-fresh key, `getMiningStats`
returns the zeroed `MiningStats` (all numeric fields 0, empty pools,
ratio `"0.00"`, units computed from the current network) but it does
populate the cache entry for that key with this placeholder, and it
counts as one issued fetch. -/
theorem getMiningStats_failure_spec (network : String) (s : ServiceState) (now : ℤ)
    (interval : String) (hmiss : cacheFresh s interval now = false) :
    (getMiningStats network s now interval FetchOutcome.failure).result
      = emptyMiningStats network ∧
    (emptyMiningStats network).lastEstimatedHashrate = 0 ∧
    (emptyMiningStats network).lastEstimatedHashrate3d = 0 ∧
    (emptyMiningStats network).lastEstimatedHashrate1w = 0 ∧
    (emptyMiningStats network).blockCount = 0 ∧
    (emptyMiningStats network).totalEmptyBlock = 0 ∧
    (emptyMiningStats network).totalEmptyBlockRatio = "0.00" ∧
    (emptyMiningStats network).pools = [] ∧
    (emptyMiningStats network).totalBlockCount = some 0 ∧
    (emptyMiningStats network).miningUnits = getMiningUnits network ∧
    (getMiningStats network s now interval FetchOutcome.failure).state.cache interval
      = some { lastUpdated := now, data := emptyMiningStats network } ∧
    (getMiningStats network s now interval FetchOutcome.failure).fetched = true := by
  have hr1 : getMiningStats network s now interval FetchOutcome.failure
      = fetchAndCache network s now interval FetchOutcome.failure := by
    rcases hc : s.cache interval with _ | e
    · simp [getMiningStats, hc]
    · have : ¬ e.lastUpdated > now - 5 * 60000 := by
        simp only [cacheFresh, hc] at hmiss
        simpa using hmiss
      simp only [getMiningStats, hc]
      rw [if_neg this]
  rw [hr1]
  refine ⟨rfl, rfl, rfl, rfl, rfl, rfl, rfl, rfl, rfl, rfl, ?_, rfl⟩
  exact fetchAndCache_state_cache_self network s now interval FetchOutcome.failure

/-- Witness for C1's amended theorem: concrete failure on a fresh
service for interval `1w` at time 5. -/
theorem getMiningStats_failure_spec_witness :
    (getMiningStats "" initState 5 "1w" FetchOutcome.failure).result
      = emptyMiningStats "" :=
  (getMiningStats_failure_spec "" initState 5 "1w" rfl).1

/-- Pool `A` of the end-to-end example payload. -/
def rpA : RawPoolStat := { name := "A", slug := "A", blockCount := 60, emptyBlocks := some 1 }

/-- Pool `B` of the end-to-end example payload. -/
def rpB : RawPoolStat := { name := "B", slug := "B", blockCount := 40, emptyBlocks := some 0 }

/-- The end-to-end example payload: 100 blocks, current hashrate
`5e20`, pools `A` (60 blocks, 1 empty) and `B` (40 blocks, 0 empty). -/
def examplePayload : PoolsStats :=
  { blockCount := 100
    lastEstimatedHashrate := some (5 * 10 ^ 20)
    lastEstimatedHashrate3d := none
    lastEstimatedHashrate1w := none
    pools := [rpA, rpB] }

/-- A payload whose single pool reports more blocks than the payload
total and more empty blocks than its own block count. -/
def inconsistentPayload : PoolsStats :=
  { blockCount := 1
    lastEstimatedHashrate := none
    lastEstimatedHashrate3d := none
    lastEstimatedHashrate1w := none
    pools := [{ name := "x", slug := "x", blockCount := 2, emptyBlocks := some 3 }] }

/-- Counterexample for C5: on the example payload the derived top-level
`lastEstimatedHashrate` is `500` (`5e20 / 1e18`), not the `0.5` the
claim states. -/
theorem example_hashrate_is_500 :
    (generateMiningStats "" examplePayload none).lastEstimatedHashrate = 500 ∧
    (500 : ℚ) ≠ 1 / 2 := by
  constructor
  · simp only [generateMiningStats, examplePayload, getMiningUnits, Option.getD_some]
    rw [if_neg (by decide : ¬("" = "testnet" ∨ "" = "testnet4"))]
    norm_num
  · norm_num

/-- C5 (amended): the example payload on the main network yields pool
shares `60` and `40`, empty-block ratio strings `"1.67"` and `"0.00"`,
total empty-block ratio `"1.00"`, and top-level hashrate `500` (not
`0.5`). -/
theorem example_derivation_values :
    ((generateMiningStats "" examplePayload none).pools.map DerivedPoolStat.share)
      = [60, 40] ∧
    ((generateMiningStats "" examplePayload none).pools.map DerivedPoolStat.emptyBlockRatio)
      = ["1.67", "0.00"] ∧
    (generateMiningStats "" examplePayload none).totalEmptyBlockRatio = "1.00" ∧
    (generateMiningStats "" examplePayload none).lastEstimatedHashrate = 500 := by
  have h60 : toFixed2Int 60 = 6000 := toFixed2Int_eq_of 60 6000 (by norm_num) (by norm_num)
  have h40 : toFixed2Int 40 = 4000 := toFixed2Int_eq_of 40 4000 (by norm_num) (by norm_num)
  have h53 : toFixed2Int (5 / 3) = 167 :=
    toFixed2Int_eq_of (5 / 3) 167 (by norm_num) (by norm_num)
  have h0 : toFixed2Int 0 = 0 := toFixed2Int_eq_of 0 0 (by norm_num) (by norm_num)
  have h1 : toFixed2Int 1 = 100 := toFixed2Int_eq_of 1 100 (by norm_num) (by norm_num)
  refine ⟨?_, ?_, ?_, ?_⟩
  · simp only [generateMiningStats, examplePayload, derivePoolStat, rpA, rpB,
      List.map_map, List.map]
    norm_num [roundTo2, h60, h40]
  · simp only [generateMiningStats, examplePayload, derivePoolStat, rpA, rpB,
      List.map_map, List.map]
    norm_num [fmtFixed2, h53, h0]
    decide
  · simp only [generateMiningStats, examplePayload, totalEmptyBlock, rpA, rpB]
    norm_num [fmtFixed2, h1]
    decide
  · simp only [generateMiningStats, examplePayload, getMiningUnits, Option.getD_some]
    rw [if_neg (by decide : ¬("" = "testnet" ∨ "" = "testnet4"))]
    norm_num

/-- Counterexample for C6: a payload whose pool counters exceed the
payload total produces a share of `200` and an empty-block ratio string
`"150.00"`, both outside `[0, 100]`. -/
theorem derived_bounds_counterexample :
    ((generateMiningStats "" inconsistentPayload none).pools.map DerivedPoolStat.share)
      = [200] ∧
    ¬ ((200 : ℚ) ≤ 100) ∧
    ((generateMiningStats "" inconsistentPayload none).pools.map
      DerivedPoolStat.emptyBlockRatio) = ["150.00"] := by
  have h200 : toFixed2Int 200 = 20000 :=
    toFixed2Int_eq_of 200 20000 (by norm_num) (by norm_num)
  have h150 : toFixed2Int 150 = 15000 :=
    toFixed2Int_eq_of 150 15000 (by norm_num) (by norm_num)
  refine ⟨?_, by norm_num, ?_⟩
  · simp only [generateMiningStats, inconsistentPayload, derivePoolStat,
      List.map_map, List.map]
    norm_num [roundTo2, h200]
  · simp only [generateMiningStats, inconsistentPayload, derivePoolStat,
      List.map_map, List.map]
    norm_num [fmtFixed2, h150]
    decide

/-- C6 (amended): for payloads in which each pool's block count is at
most the payload total and its empty-block count at most its own block
count, every derived pool has `share ∈ [0, 100]` and an empty-block
ratio string rendering `n/100` with `n ≤ 10000` (a number in
`[0, 100]`). -/
theorem derived_bounds (network : String) (body : PoolsStats) (hdr : Option String)
    (hwf : ∀ rp ∈ body.pools, rp.blockCount ≤ body.blockCount ∧
      rp.emptyBlocks.getD 0 ≤ rp.blockCount) :
    ∀ p ∈ (generateMiningStats network body hdr).pools,
      0 ≤ p.share ∧ p.share ≤ 100 ∧
      ∃ n : ℕ, n ≤ 10000 ∧ p.emptyBlockRatio = fmtHundredths n := by
  intro p hp
  simp only [generateMiningStats, List.mem_map] at hp
  obtain ⟨rp, hrp, rfl⟩ := hp
  obtain ⟨hbc, heb⟩ := hwf rp hrp
  simp only [derivePoolStat]
  refine ⟨?_, ?_, ?_⟩
  · by_cases hb : 0 < body.blockCount
    · rw [if_pos hb]
      exact roundTo2_nonneg _ (by positivity)
    · rw [if_neg hb]
  · by_cases hb : 0 < body.blockCount
    · rw [if_pos hb]
      exact roundTo2_le_100 _ (natRatioLe100 rp.blockCount body.blockCount hb hbc)
    · rw [if_neg hb]
      norm_num
  · by_cases hpb : 0 < rp.blockCount
    · rw [if_pos hpb]
      have hq0 : 0 ≤ ((rp.emptyBlocks.getD 0 : ℕ) : ℚ) / (rp.blockCount : ℚ) * 100 := by
        positivity
      have hq1 := natRatioLe100 (rp.emptyBlocks.getD 0) rp.blockCount hpb heb
      refine ⟨(toFixed2Int (((rp.emptyBlocks.getD 0 : ℕ) : ℚ) / (rp.blockCount : ℚ) * 100)).toNat,
        ?_, ?_⟩
      · have := toFixed2Int_le_10000 _ hq1
        omega
      · exact fmtFixed2_of_nonneg _ hq0
    · rw [if_neg hpb]
      exact ⟨0, by omega, by decide⟩

/-- Witness for C6's amended theorem: the bounds at the first derived
pool of the example payload. -/
theorem derived_bounds_witness :
    0 ≤ (derivePoolStat examplePayload.blockCount
          (examplePayload.lastEstimatedHashrate.getD 0)
          (examplePayload.lastEstimatedHashrate3d.getD 0)
          (examplePayload.lastEstimatedHashrate1w.getD 0)
          (getMiningUnits "").hashrateDivider rpA).share ∧
    (derivePoolStat examplePayload.blockCount
          (examplePayload.lastEstimatedHashrate.getD 0)
          (examplePayload.lastEstimatedHashrate3d.getD 0)
          (examplePayload.lastEstimatedHashrate1w.getD 0)
          (getMiningUnits "").hashrateDivider rpA).share ≤ 100 ∧
    ∃ n : ℕ, n ≤ 10000 ∧
      (derivePoolStat examplePayload.blockCount
          (examplePayload.lastEstimatedHashrate.getD 0)
          (examplePayload.lastEstimatedHashrate3d.getD 0)
          (examplePayload.lastEstimatedHashrate1w.getD 0)
          (getMiningUnits "").hashrateDivider rpA).emptyBlockRatio = fmtHundredths n :=
  derived_bounds "" examplePayload none (by decide) _
    (by
      simp only [generateMiningStats]
      exact List.mem_map_of_mem _ (by simp [examplePayload]))

/-- Counterexample for C7: with the non-numeric header string `"abc"`
the derived `totalBlockCount` is the JS `NaN` (modelled `none`), not the
`0` the claim states; the absent-header case does give `0`. -/
theorem totalBlockCount_nonnumeric :
    (generateMiningStats "" zeroPayload (some "abc")).totalBlockCount = none ∧
    (generateMiningStats "" zeroPayload none).totalBlockCount = some 0 ∧
    (none : Option ℤ) ≠ some 0 := by
  refine ⟨rfl, rfl, by decide⟩

/-- C7 (amended): `totalBlockCount` is the base-10 `parseInt` of the
total-count header after JS `|| '0'` defaulting: an absent or empty
header yields `0`; any other header string is parsed by `parseInt`,
which yields `NaN` (`none`), not `0`, on input with no leading digits —
e.g. `"abc"` — and the leading integer otherwise. -/
theorem totalBlockCount_parse (network : String) (body : PoolsStats) (hdr : Option String) :
    ((hdr = none ∨ hdr = some "") →
      (generateMiningStats network body hdr).totalBlockCount = some 0) ∧
    (∀ v, hdr = some v → v ≠ "" →
      (generateMiningStats network body hdr).totalBlockCount = parseInt10 v) ∧
    parseInt10 "abc" = none ∧
    parseInt10 "42" = some 42 ∧
    parseInt10 "12abc" = some 12 := by
  refine ⟨?_, ?_, by decide, by decide, by decide⟩
  · rintro (rfl | rfl) <;> rfl
  · rintro v rfl hv
    simp only [generateMiningStats, jsStringOr]
    rw [if_neg hv]

/-- Witness for C7's amended theorem: the non-numeric header `"abc"`
flows through `parseInt`, yielding `none`. -/
theorem totalBlockCount_parse_witness :
    (generateMiningStats "" zeroPayload (some "abc")).totalBlockCount = parseInt10 "abc" :=
  (totalBlockCount_parse "" zeroPayload (some "abc")).2.1 "abc" rfl (by decide)
